import Mathlib

/-!
# Verification of the GmodAddonTranslator batch pipeline

A shallow embedding of `src/translator_logic.py` (class `GModAddonTranslator`)
and of the worker-count check in `src/translator_gui.py` (`start_processing`),
together with proofs about the embedded definitions.

Filesystem-dependent behaviour is modelled by passing an explicit abstract
filesystem state (`FS`) describing the directory listings and file contents
the Python code inspects; network and subprocess results are passed in as
explicit outcome values, mirroring the `try`/`except` structure of the code.
-/

namespace GmodAddonTranslator

/-- One immediate subdirectory of the translated output root, as
`is_addon_already_processed` sees it: its name, whether it is a directory,
and — when the file `View on Steam Workshop.url` exists inside it and is
readable — that file's text content. -/
structure DirEntry where
  name : String
  isDir : Bool
  shortcut : Option String
deriving DecidableEq, Repr

/-- Abstract filesystem state read by the pipeline:
`workshopChildren` are the immediate children of `workshop_path`
(name, is-directory flag); `translatedExists` is whether `translated_path`
exists; `translatedDirs` are the immediate children of `translated_path`. -/
structure FS where
  workshopChildren : List (String × Bool)
  translatedExists : Bool
  translatedDirs : List DirEntry
deriving DecidableEq, Repr

/-- Python `str.isdigit()`: nonempty and every character a digit. -/
def isDigitStr (s : String) : Bool :=
  !s.isEmpty && s.data.all Char.isDigit

/-- Python substring test `needle in hay`. -/
def containsSub (needle hay : String) : Bool :=
  decide (needle.data <:+: hay.data)

/-- The text written by `create_workshop_shortcut` into
`View on Steam Workshop.url`: the three `f.write` calls, with
`workshop_url = "https://steamcommunity.com/sharedfiles/filedetails/?id=" + addon_id`. -/
def create_workshop_shortcut_content (addon_id : String) : String :=
  "[InternetShortcut]\n" ++
  ("URL=" ++ ("https://steamcommunity.com/sharedfiles/filedetails/?id=" ++ addon_id) ++ "\n") ++
  "IconIndex=0\n"

/-- `is_addon_already_processed`: if the translated path exists, scan every
directory child of it; the addon counts as processed when some child's
`View on Steam Workshop.url` file content contains the substring
`"id=" + addon_id`. -/
def is_addon_already_processed (fs : FS) (addon_id : String) : Bool :=
  if fs.translatedExists then
    fs.translatedDirs.any fun e =>
      e.isDir &&
        match e.shortcut with
        | some content => containsSub ("id=" ++ addon_id) content
        | none => false
  else false

/-- The `addon_folders` list computed at the top of `process_addons`:
immediate children of `workshop_path` that are directories with all-digit
names. -/
def addon_folders (fs : FS) : List String :=
  (fs.workshopChildren.filter fun p => p.2 && isDigitStr p.1).map Prod.fst

/-- The ids `process_addons` classifies as already processed (counted in
`skipped`). -/
def skipped_addons (fs : FS) : List String :=
  (addon_folders fs).filter fun id => is_addon_already_processed fs id

/-- The `addons_to_process` list built by the filtering loop of
`process_addons`: discovered ids not already processed. -/
def addons_to_process (fs : FS) : List String :=
  (addon_folders fs).filter fun id => !is_addon_already_processed fs id

/-- Observable events of one `process_addons` call, in program order:
`scan id b` is the `is_addon_already_processed` check for `id` (result `b`)
in the filtering loop; `dispatch id` is `executor.submit(process_single_addon,
id, ...)`; `poolError` is the `ValueError` raised by
`ThreadPoolExecutor(max_workers=w)` when `w <= 0`. -/
inductive Ev where
  | scan (id : String) (processed : Bool)
  | dispatch (id : String)
  | poolError
deriving DecidableEq, Repr

/-- Event trace of `process_addons(max_workers)`: the filtering loop runs the
idempotency check over every discovered id; if nothing is left to process the
function returns before creating the executor; otherwise the executor is
created (raising when `max_workers <= 0`) and every remaining id is
submitted. -/
def process_addons_trace (fs : FS) (max_workers : Int) : List Ev :=
  let scans := (addon_folders fs).map fun id =>
    Ev.scan id (is_addon_already_processed fs id)
  if (addons_to_process fs).isEmpty then
    scans
  else if max_workers ≤ 0 then
    scans ++ [Ev.poolError]
  else
    scans ++ (addons_to_process fs).map Ev.dispatch

/-- Outcome of the `shutil.copytree(source_path, dest_path)` call in
`process_single_addon`: success, `FileExistsError` (destination directory
already exists), or any other exception. -/
inductive CopyOutcome where
  | ok
  | fileExists
  | err
deriving DecidableEq, Repr

/-- What one `process_single_addon` call did: the destination name it used,
whether the copy was performed, whether the `FileExistsError` branch ran
(existing destination treated as already copied), whether the function
returned early at the copy `except Exception` branch, whether
`create_workshop_shortcut` was called and whether it wrote the marker,
and whether `decompile_gma_files` (the unpack step) was called. -/
structure ItemTrace where
  name : String
  copyPerformed : Bool
  copySkippedExisting : Bool
  returnedEarly : Bool
  markerAttempted : Bool
  markerWritten : Bool
  unpackAttempted : Bool
deriving DecidableEq, Repr

/-- `process_single_addon(addon_id, ...)`. Inputs standing for the
environment: `fetched` is the result of `get_addon_name` (`None` on any
lookup failure), `copy` the outcome of `shutil.copytree`, `markerExists`
whether `dest_path/View on Steam Workshop.url` exists at the
`os.path.exists` check, and `markerWriteFails` whether the `open`/`write`
inside `create_workshop_shortcut` raises (caught there). -/
def process_single_addon (addon_id : String) (fetched : Option String)
    (copy : CopyOutcome) (markerExists : Bool) (markerWriteFails : Bool) :
    ItemTrace :=
  let addon_name :=
    match fetched with
    | none => "addon_" ++ addon_id
    | some n => n
  match copy with
  | .err =>
      { name := addon_name, copyPerformed := false,
        copySkippedExisting := false, returnedEarly := true,
        markerAttempted := false, markerWritten := false,
        unpackAttempted := false }
  | .ok =>
      { name := addon_name, copyPerformed := true,
        copySkippedExisting := false, returnedEarly := false,
        markerAttempted := !markerExists,
        markerWritten := !markerExists && !markerWriteFails,
        unpackAttempted := true }
  | .fileExists =>
      { name := addon_name, copyPerformed := false,
        copySkippedExisting := true, returnedEarly := false,
        markerAttempted := !markerExists,
        markerWritten := !markerExists && !markerWriteFails,
        unpackAttempted := true }

/-- Result of the `as_completed` loop at the dispatch boundary of
`process_addons`: the final value of `completed`, the arguments of every
`update_progress` call in order, and the error lines logged by the
`except` branch. -/
structure BoundaryResult where
  completed : Nat
  progressCalls : List (Nat × Nat)
  errorLogs : List String
deriving DecidableEq, Repr

/-- The `for future in as_completed(...)` loop of `process_addons`, one
iteration per dispatched item. `outcomes` pairs each completed future's
addon id with whether `future.result()` returned without raising; both the
`try` and the `except` branch increment `completed` and call
`update_progress(completed, total)`; the `except` branch additionally logs
an error line. -/
def completion_loop (total : Nat) :
    List (String × Bool) → Nat → BoundaryResult
  | [], completed =>
      { completed := completed, progressCalls := [], errorLogs := [] }
  | (id, ok) :: rest, completed =>
      let c := completed + 1
      let r := completion_loop total rest c
      { completed := r.completed,
        progressCalls := (c, total) :: r.progressCalls,
        errorLogs :=
          if ok then r.errorLogs
          else ("✗ Error processing addon " ++ id) :: r.errorLogs }

/-- The dispatch boundary of `process_addons` over all dispatched items,
starting from `completed = 0` with `total = number of dispatched items`. -/
def dispatch_boundary (outcomes : List (String × Bool)) : BoundaryResult :=
  completion_loop outcomes.length outcomes 0

/-- Items whose future returned normally (succeeded). -/
def succeeded_count (outcomes : List (String × Bool)) : Nat :=
  (outcomes.filter fun o => o.2).length

/-- Items whose future raised (caught and counted at the boundary). -/
def failed_count (outcomes : List (String × Bool)) : Nat :=
  (outcomes.filter fun o => !o.2).length

/-- Result of the HTTP request in `get_addon_name`: the request raised
(network error / timeout), or returned a response with a status code and —
when the page has a `workshopItemTitle` div — that div's text. -/
inductive HttpResult where
  | raised
  | response (status : Nat) (titleDiv : Option String)
deriving DecidableEq, Repr

/-- Python `title.replace(char, '')`: remove every occurrence of `c`. -/
def removeChar (s : String) (c : Char) : String :=
  ⟨s.data.filter fun d => d ≠ c⟩

/-- The `invalid_chars = '<>:"/\\|?*'` string of `get_addon_name`. -/
def invalid_chars : List Char := ['<', '>', ':', '"', '/', '\\', '|', '?', '*']

/-- The title-cleaning loop of `get_addon_name`: strip then remove each
invalid character in turn. -/
def clean_title (title : String) : String :=
  invalid_chars.foldl removeChar title.trim

/-- `get_addon_name(addon_id)`: on a 200 response with a title div, return
the cleaned title; on any other status, a missing title div, or a raised
request (caught by the `except`), return `None`. -/
def get_addon_name (r : HttpResult) : Option String :=
  match r with
  | .raised => none
  | .response status titleDiv =>
      if status = 200 then
        match titleDiv with
        | some title => some (clean_title title)
        | none => none
      else none

/-- The unit list `['B', 'KB', 'MB', 'GB', 'TB']` of `format_size`. -/
def size_units : List String := ["B", "KB", "MB", "GB", "TB"]

/-- Round-half-even of `num/den` (`den > 0`) to an integer, the rounding
Python's float formatting applies (exact here: the claim's inputs are
binary-exact, so float and exact arithmetic agree). -/
def roundHalfEven (num den : Nat) : Nat :=
  let q := num / den
  let r := num % den
  if 2 * r < den then q
  else if den < 2 * r then q + 1
  else if q % 2 = 0 then q else q + 1

/-- Python `f"{x:.2f}"` for the nonnegative exact value `num/den`:
round-half-even to hundredths, then print integer part, a dot, and two
fraction digits. -/
def format2f (num den : Nat) : String :=
  let cents := roundHalfEven (num * 100) den
  toString (cents / 100) ++ "." ++
    (if cents % 100 < 10 then "0" else "") ++ toString (cents % 100)

/-- The unit loop of `format_size`, carrying the current value as the exact
fraction `num/den` (each `bytes_size /= 1024.0` multiplies `den` by 1024). -/
def format_size_loop : List String → Nat → Nat → String
  | [], num, den => format2f num den ++ " PB"
  | unit :: rest, num, den =>
      if num < 1024 * den then format2f num den ++ " " ++ unit
      else format_size_loop rest num (den * 1024)

/-- `format_size(bytes_size)` for a nonnegative integer byte count. -/
def format_size (bytes_size : Nat) : String :=
  format_size_loop size_units bytes_size 1

/-- The worker-count check at the top of `start_processing` in
`translator_gui.py`: `parsed` is the result of `int(self.thread_spinbox.get())`
(`none` when `int()` raised on non-numeric input); the check accepts exactly
when parsing succeeded and the value is in `[1, 20]`, otherwise an error
dialog is shown and `process_addons` is never invoked. -/
def start_processing_accepts (parsed : Option Int) : Bool :=
  match parsed with
  | none => false
  | some threads => !(threads < 1 || 20 < threads)

/-! ## Helper lemmas -/

/-- Splitting the workshop URL literal before its trailing `id=` token. -/
theorem url_literal_split :
    ("https://steamcommunity.com/sharedfiles/filedetails/?id=" : String) =
      "https://steamcommunity.com/sharedfiles/filedetails/?" ++ "id=" := rfl

/-- If `x` is a prefix of `id` then the shortcut content written for `id`
contains the substring `"id=" ++ x`. -/
theorem marker_contains_of_pre (x id : String) (h : x.data <+: id.data) :
    containsSub ("id=" ++ x) (create_workshop_shortcut_content id) = true := by
  obtain ⟨t, ht⟩ := h
  simp only [containsSub, decide_eq_true_eq]
  refine ⟨("[InternetShortcut]\n" : String).data ++ ("URL=" : String).data ++
      ("https://steamcommunity.com/sharedfiles/filedetails/?" : String).data,
    t ++ ("\n" : String).data ++ ("IconIndex=0\n" : String).data, ?_⟩
  simp only [create_workshop_shortcut_content, url_literal_split,
    String.data_append, ← ht, List.append_assoc]

/-- A directory entry of the output root whose shortcut content contains
`"id=" ++ id` makes `is_addon_already_processed` return true. -/
theorem processed_of_entry {fs : FS} {e : DirEntry} {id c : String}
    (hex : fs.translatedExists = true) (he : e ∈ fs.translatedDirs)
    (hd : e.isDir = true) (hs : e.shortcut = some c)
    (hc : containsSub ("id=" ++ id) c = true) :
    is_addon_already_processed fs id = true := by
  unfold is_addon_already_processed
  rw [hex, if_pos rfl, List.any_eq_true]
  exact ⟨e, he, by rw [hd, hs]; simpa using hc⟩

/-- `addon_folders` depends only on the workshop children listing. -/
theorem addon_folders_congr {fs fs2 : FS}
    (h : fs2.workshopChildren = fs.workshopChildren) :
    addon_folders fs2 = addon_folders fs := by
  unfold addon_folders; rw [h]

/-! ## Claims -/

/-- C9. Size formatting: `format_size` divides by 1024 per unit step through
B/KB/MB/GB/TB/PB and renders with 2 decimal places, so that
`format_size 0 = "0.00 B"`, `format_size 1536 = "1.50 KB"` and
`format_size (1024^4) = "1.00 TB"`. -/
theorem C9_format_size_values :
    format_size 0 = "0.00 B" ∧ format_size 1536 = "1.50 KB" ∧
      format_size (1024 ^ 4) = "1.00 TB" := by
  refine ⟨rfl, rfl, ?_⟩
  decide

/-- C4 counterexample. The claim that a copy failure other than
destination-already-exists is still followed by the marker-write and unpack
steps is false: on a copy error, `process_single_addon` returns early and
neither the marker write nor the unpack step runs (concrete input:
addon id "123", no fetched name, copy outcome `err`). -/
theorem C4_copy_error_skips_rest :
    (process_single_addon "123" none CopyOutcome.err false false).returnedEarly
        = true ∧
      (process_single_addon "123" none CopyOutcome.err false false).markerAttempted
        = false ∧
      (process_single_addon "123" none CopyOutcome.err false false).unpackAttempted
        = false := by
  decide

/-- C4 amended. Failures in name resolution, the marker write, or a
destination-already-exists copy outcome do not abort the remaining steps of
`process_single_addon`; but a copy failure other than
destination-already-exists returns early, skipping the marker-write and
unpack steps. -/
theorem C4_step_independence_amended (id : String) (fetched : Option String)
    (c : CopyOutcome) (m mwf : Bool) :
    (c ≠ CopyOutcome.err →
        (process_single_addon id fetched c m mwf).returnedEarly = false ∧
        (process_single_addon id fetched c m mwf).markerAttempted = !m ∧
        (process_single_addon id fetched c m mwf).unpackAttempted = true) ∧
      (process_single_addon id fetched c m mwf).unpackAttempted =
        (process_single_addon id fetched c m (!mwf)).unpackAttempted ∧
      (process_single_addon id none c m mwf).unpackAttempted =
        (process_single_addon id fetched c m mwf).unpackAttempted ∧
      (c = CopyOutcome.err →
        (process_single_addon id fetched c m mwf).returnedEarly = true ∧
        (process_single_addon id fetched c m mwf).markerAttempted = false ∧
        (process_single_addon id fetched c m mwf).unpackAttempted = false) := by
  cases c <;> cases fetched <;>
    simp [process_single_addon]

/-- C4 amended, witness at a concrete input. -/
theorem C4_step_independence_amended_witness :
    (CopyOutcome.fileExists ≠ CopyOutcome.err →
        (process_single_addon "42" none CopyOutcome.fileExists false false).returnedEarly = false ∧
        (process_single_addon "42" none CopyOutcome.fileExists false false).markerAttempted = !false ∧
        (process_single_addon "42" none CopyOutcome.fileExists false false).unpackAttempted = true) ∧
      (process_single_addon "42" none CopyOutcome.fileExists false false).unpackAttempted =
        (process_single_addon "42" none CopyOutcome.fileExists false (!false)).unpackAttempted ∧
      (process_single_addon "42" none CopyOutcome.fileExists false false).unpackAttempted =
        (process_single_addon "42" none CopyOutcome.fileExists false false).unpackAttempted ∧
      (CopyOutcome.fileExists = CopyOutcome.err →
        (process_single_addon "42" none CopyOutcome.fileExists false false).returnedEarly = true ∧
        (process_single_addon "42" none CopyOutcome.fileExists false false).markerAttempted = false ∧
        (process_single_addon "42" none CopyOutcome.fileExists false false).unpackAttempted = false) :=
  C4_step_independence_amended "42" none CopyOutcome.fileExists false false

/-- C5 counterexample. The claim that `process_addons` rejects out-of-range
worker counts before any scanning or dispatch is false: with
`max_workers = 21` and one unprocessed addon "101", the call scans and then
dispatches the item — no rejection happens at all. -/
theorem C5_no_validation_in_process_addons :
    process_addons_trace
        { workshopChildren := [("101", true)], translatedExists := false,
          translatedDirs := [] } 21 =
      [Ev.scan "101" false, Ev.dispatch "101"] := by
  set_option maxRecDepth 4000 in decide

/-- C5 amended. The worker-count validation lives in the GUI's
`start_processing`, not in the pipeline's `process_addons`: the GUI check
rejects non-numeric input and the values 0 and 21 before invoking the
pipeline, and accepts 1 and 20; `process_addons` itself performs no
validation — even `max_workers = 0` runs the scan first, failing only at
pool creation afterwards. -/
theorem C5_validation_in_gui_amended :
    start_processing_accepts none = false ∧
      start_processing_accepts (some 0) = false ∧
      start_processing_accepts (some 21) = false ∧
      start_processing_accepts (some 1) = true ∧
      start_processing_accepts (some 20) = true ∧
      process_addons_trace
          { workshopChildren := [("77", true)], translatedExists := false,
            translatedDirs := [] } 0 =
        [Ev.scan "77" false, Ev.poolError] := by
  set_option maxRecDepth 4000 in decide

/-- C3. Resume path: when the destination directory already exists
(`shutil.copytree` raises `FileExistsError`), `process_single_addon` treats
it as already copied rather than an error (no early return, no failure),
still attempts the marker write exactly when the marker file is absent
(writing it when the write itself does not fail), and still runs the
unpack step. -/
theorem C3_resume_existing_destination (id : String) (fetched : Option String)
    (m mwf : Bool) :
    (process_single_addon id fetched CopyOutcome.fileExists m mwf).returnedEarly
        = false ∧
      (process_single_addon id fetched CopyOutcome.fileExists m mwf).copyPerformed
        = false ∧
      (process_single_addon id fetched CopyOutcome.fileExists m mwf).copySkippedExisting
        = true ∧
      (process_single_addon id fetched CopyOutcome.fileExists m mwf).markerAttempted
        = !m ∧
      (m = false → mwf = false →
        (process_single_addon id fetched CopyOutcome.fileExists m mwf).markerWritten
          = true) ∧
      (process_single_addon id fetched CopyOutcome.fileExists m mwf).unpackAttempted
        = true := by
  cases fetched <;> cases m <;> cases mwf <;> simp [process_single_addon]

/-- C3 witness at a concrete input. -/
theorem C3_resume_existing_destination_witness :
    (process_single_addon "7" (some "Nice Addon") CopyOutcome.fileExists false false).returnedEarly
        = false ∧
      (process_single_addon "7" (some "Nice Addon") CopyOutcome.fileExists false false).copyPerformed
        = false ∧
      (process_single_addon "7" (some "Nice Addon") CopyOutcome.fileExists false false).copySkippedExisting
        = true ∧
      (process_single_addon "7" (some "Nice Addon") CopyOutcome.fileExists false false).markerAttempted
        = !false ∧
      (false = false → false = false →
        (process_single_addon "7" (some "Nice Addon") CopyOutcome.fileExists false false).markerWritten
          = true) ∧
      (process_single_addon "7" (some "Nice Addon") CopyOutcome.fileExists false false).unpackAttempted
        = true :=
  C3_resume_existing_destination "7" (some "Nice Addon") false false

/-- C6. Synthetic-name fallback: when the catalog lookup returns no title,
`process_single_addon` uses the name `"addon_" ++ id`, still completes the
item (no early return, unpack runs, marker attempted when absent) whenever
the copy does not fail, and the lookup miss itself never changes whether
the item fails: the early-return flag is the same as with any fetched
title. -/
theorem C6_synthetic_name_fallback (id : String) (c : CopyOutcome)
    (m mwf : Bool) :
    (process_single_addon id none c m mwf).name = "addon_" ++ id ∧
      (c ≠ CopyOutcome.err →
        (process_single_addon id none c m mwf).returnedEarly = false ∧
        (process_single_addon id none c m mwf).unpackAttempted = true ∧
        (process_single_addon id none c m mwf).markerAttempted = !m) ∧
      ∀ t : String,
        (process_single_addon id none c m mwf).returnedEarly =
          (process_single_addon id (some t) c m mwf).returnedEarly := by
  cases c <;> simp [process_single_addon]

/-- C6 witness at a concrete input. -/
theorem C6_synthetic_name_fallback_witness :
    (process_single_addon "314" none CopyOutcome.ok false false).name
        = "addon_" ++ "314" ∧
      (CopyOutcome.ok ≠ CopyOutcome.err →
        (process_single_addon "314" none CopyOutcome.ok false false).returnedEarly = false ∧
        (process_single_addon "314" none CopyOutcome.ok false false).unpackAttempted = true ∧
        (process_single_addon "314" none CopyOutcome.ok false false).markerAttempted = !false) ∧
      ∀ t : String,
        (process_single_addon "314" none CopyOutcome.ok false false).returnedEarly =
          (process_single_addon "314" (some t) CopyOutcome.ok false false).returnedEarly :=
  C6_synthetic_name_fallback "314" CopyOutcome.ok false false

/-- C10. Implicit prefix false-positive of the idempotency check: for two
distinct all-digit ids `x` and `y` with `x` a prefix of `y`, a directory
entry of the output root whose marker was written for `y` makes
`is_addon_already_processed` return true for `x`, so `x` is classified as
skipped whenever it is discovered in the workshop listing. -/
theorem C10_prefix_false_positive (x y : String) (fs : FS) (e : DirEntry)
    (hne : x ≠ y) (hx : isDigitStr x = true) (hy : isDigitStr y = true)
    (hpre : x.data <+: y.data)
    (hex : fs.translatedExists = true) (he : e ∈ fs.translatedDirs)
    (hd : e.isDir = true)
    (hs : e.shortcut = some (create_workshop_shortcut_content y)) :
    is_addon_already_processed fs x = true ∧
      ((x, true) ∈ fs.workshopChildren → x ∈ skipped_addons fs) := by
  have hproc : is_addon_already_processed fs x = true :=
    processed_of_entry hex he hd hs (marker_contains_of_pre x y hpre)
  refine ⟨hproc, fun hw => ?_⟩
  unfold skipped_addons
  rw [List.mem_filter]
  refine ⟨?_, by simpa using hproc⟩
  unfold addon_folders
  exact List.mem_map.mpr ⟨(x, true), List.mem_filter.mpr ⟨hw, by simp [hx]⟩, rfl⟩

/-- C10 witness: id "12" is a proper prefix of id "123"; an output entry
carrying the marker written for "123" makes the check classify "12" as
already processed. -/
theorem C10_prefix_false_positive_witness :
    ("12" : String) ≠ "123" ∧
      is_addon_already_processed
        { workshopChildren := [("12", true)],
          translatedExists := true,
          translatedDirs :=
            [{ name := "Some Addon", isDir := true,
               shortcut := some (create_workshop_shortcut_content "123") }] }
        "12" = true := by
  constructor
  · decide
  · exact (C10_prefix_false_positive "12" "123" _
      { name := "Some Addon", isDir := true,
        shortcut := some (create_workshop_shortcut_content "123") }
      (by decide) (by decide) (by decide) (by decide) rfl
      (by simp) rfl rfl).1

/-- C8. Catalog client contract: `get_addon_name` never raises — a raised
request, a non-200 status, or a missing title div all yield `none` — and
every title it does return has the filesystem-invalid characters
`< > : " / \ | ? *` removed. -/
theorem C8_get_addon_name_contract :
    get_addon_name HttpResult.raised = none ∧
      (∀ (st : Nat) (t : Option String), st ≠ 200 →
        get_addon_name (HttpResult.response st t) = none) ∧
      get_addon_name (HttpResult.response 200 none) = none ∧
      ∀ (r : HttpResult) (title : String),
        get_addon_name r = some title → ∀ ch ∈ title.data, ch ∉ invalid_chars := by
  refine ⟨rfl, fun st t hst => by simp [get_addon_name, hst], rfl, ?_⟩
  intro r title h ch hch
  cases r with
  | raised => simp [get_addon_name] at h
  | response st t =>
    by_cases hst : st = 200
    · subst hst
      cases t with
      | none => simp [get_addon_name] at h
      | some s =>
        simp only [get_addon_name, if_true, Option.some.injEq, reduceIte] at h
        subst h
        simp only [clean_title, invalid_chars, List.foldl, removeChar,
          List.mem_filter, decide_eq_true_eq] at hch
        simp only [invalid_chars, List.mem_cons, List.not_mem_nil, or_false]
        tauto
    · simp [get_addon_name, hst] at h

/-- C8 witness at concrete inputs: a 404 response yields `none`, and
a 200 response with a title containing invalid characters yields a title
without them. -/
theorem C8_get_addon_name_contract_witness :
    get_addon_name (HttpResult.response 404 (some "x")) = none ∧
      (get_addon_name (HttpResult.response 200 (some "a<b>c")) = some "abc" →
        ∀ ch ∈ ("abc" : String).data, ch ∉ invalid_chars) := by
  refine ⟨C8_get_addon_name_contract.2.1 404 (some "x") (by decide), ?_⟩
  exact C8_get_addon_name_contract.2.2.2 (HttpResult.response 200 (some "a<b>c")) "abc"

/-- The final `completed` value of the dispatch-boundary loop: every item,
succeeding or raising, is counted. -/
theorem completion_loop_completed (total : Nat) (o : List (String × Bool))
    (c : Nat) : (completion_loop total o c).completed = c + o.length := by
  induction o generalizing c with
  | nil => simp [completion_loop]
  | cons p rest ih =>
    obtain ⟨id, ok⟩ := p
    simp only [completion_loop, ih, List.length_cons]
    omega

/-- The progress calls of the dispatch-boundary loop, in order. -/
theorem completion_loop_progress (total : Nat) (o : List (String × Bool))
    (c : Nat) :
    (completion_loop total o c).progressCalls =
      (List.range o.length).map fun k => (c + k + 1, total) := by
  induction o generalizing c with
  | nil => simp [completion_loop]
  | cons p rest ih =>
    obtain ⟨id, ok⟩ := p
    simp only [completion_loop, ih, List.length_cons,
      List.range_succ_eq_map, List.map_cons, List.map_map, List.cons.injEq]
    constructor
    · simp
    · apply List.map_congr_left
      intro a _
      simp only [Function.comp_apply, Prod.mk.injEq]
      exact ⟨by omega, trivial⟩

/-- Each raised item produces exactly one error log line at the boundary. -/
theorem completion_loop_errorLogs (total : Nat) (o : List (String × Bool))
    (c : Nat) :
    (completion_loop total o c).errorLogs.length = failed_count o := by
  induction o generalizing c with
  | nil => simp [completion_loop, failed_count]
  | cons p rest ih =>
    obtain ⟨id, ok⟩ := p
    cases ok <;> simp [completion_loop, failed_count, List.filter_cons, ih]

/-- Succeeded and failed partition the dispatched set. -/
theorem succeeded_add_failed (o : List (String × Bool)) :
    succeeded_count o + failed_count o = o.length := by
  induction o with
  | nil => rfl
  | cons p rest ih =>
    obtain ⟨id, ok⟩ := p
    cases ok <;>
      simp [succeeded_count, failed_count, List.filter_cons] at ih ⊢ <;>
      omega

/-- C2. Per-item failure isolation and complete accounting at the dispatch
boundary: an exception from any item is caught, logged (one error line per
failed item) and counted, never stopping the loop; afterwards
succeeded + failed equals the number dispatched, the final `completed`
equals the number dispatched, and the last progress callback carries
`(dispatched, dispatched)`. -/
theorem C2_dispatch_boundary_accounting (outcomes : List (String × Bool)) :
    succeeded_count outcomes + failed_count outcomes = outcomes.length ∧
      (dispatch_boundary outcomes).completed = outcomes.length ∧
      (dispatch_boundary outcomes).errorLogs.length = failed_count outcomes ∧
      (outcomes ≠ [] →
        (dispatch_boundary outcomes).progressCalls.getLast? =
          some (outcomes.length, outcomes.length)) := by
  refine ⟨succeeded_add_failed outcomes, ?_, ?_, ?_⟩
  · rw [dispatch_boundary, completion_loop_completed]; omega
  · rw [dispatch_boundary, completion_loop_errorLogs]
  · intro hne
    rw [dispatch_boundary, completion_loop_progress]
    obtain ⟨n, hn⟩ : ∃ n, outcomes.length = n + 1 := by
      cases outcomes with
      | nil => exact absurd rfl hne
      | cons a l => exact ⟨l.length, rfl⟩
    rw [hn, List.range_succ, List.map_append]
    simp only [List.map_cons, List.map_nil]
    rw [List.getLast?_concat]
    simp

/-- C2 witness: two dispatched items, one succeeding and one raising. -/
theorem C2_dispatch_boundary_accounting_witness :
    succeeded_count [("1", true), ("2", false)] +
        failed_count [("1", true), ("2", false)] =
        ([("1", true), ("2", false)] : List (String × Bool)).length ∧
      (dispatch_boundary [("1", true), ("2", false)]).completed = 2 ∧
      (dispatch_boundary [("1", true), ("2", false)]).errorLogs.length =
        failed_count [("1", true), ("2", false)] ∧
      (([("1", true), ("2", false)] : List (String × Bool)) ≠ [] →
        (dispatch_boundary [("1", true), ("2", false)]).progressCalls.getLast? =
          some (2, 2)) :=
  C2_dispatch_boundary_accounting [("1", true), ("2", false)]

/-- C1. Idempotence of `process_addons`: if a first call over state `fs`
ends in state `fs2` where the workshop listing is unchanged, the output
root exists, no output entry was removed, and every dispatched id received
its `View on Steam Workshop.url` marker, then a second call over `fs2`
classifies every discovered id as skipped (skipped = total discovered),
leaves nothing to process, and its trace contains scan events only — zero
dispatches. -/
theorem C1_second_call_skips_all (fs fs2 : FS) (w : Int)
    (hlib : fs2.workshopChildren = fs.workshopChildren)
    (hex : fs2.translatedExists = true)
    (hmono : ∀ e ∈ fs.translatedDirs, e ∈ fs2.translatedDirs)
    (hmark : ∀ id ∈ addons_to_process fs, ∃ e ∈ fs2.translatedDirs,
      e.isDir = true ∧ e.shortcut = some (create_workshop_shortcut_content id)) :
    (skipped_addons fs2).length = (addon_folders fs2).length ∧
      addons_to_process fs2 = [] ∧
      process_addons_trace fs2 w =
        (addon_folders fs2).map fun id => Ev.scan id true := by
  have key : ∀ id ∈ addon_folders fs2,
      is_addon_already_processed fs2 id = true := by
    intro id hid
    rw [addon_folders_congr hlib] at hid
    by_cases hp : is_addon_already_processed fs id = true
    · unfold is_addon_already_processed at hp
      by_cases hext : fs.translatedExists = true
      · rw [if_pos hext] at hp
        obtain ⟨e, he, hbe⟩ := List.any_eq_true.mp hp
        obtain ⟨hd, hm⟩ := (Bool.and_eq_true _ _).mp hbe
        cases hsc : e.shortcut with
        | none => rw [hsc] at hm; exact absurd hm (by simp)
        | some c =>
            rw [hsc] at hm
            exact processed_of_entry hex (hmono e he) hd hsc hm
      · rw [if_neg hext] at hp
        exact absurd hp (by simp)
    · have hfalse : is_addon_already_processed fs id = false := by
        revert hp; cases is_addon_already_processed fs id <;> simp
      have hid' : id ∈ addons_to_process fs := by
        unfold addons_to_process
        rw [List.mem_filter]
        exact ⟨hid, by simp [hfalse]⟩
      obtain ⟨e, he, hd, hs⟩ := hmark id hid'
      exact processed_of_entry hex he hd hs
        (marker_contains_of_pre id id (List.prefix_refl id.data))
  have hempty : addons_to_process fs2 = [] := by
    unfold addons_to_process
    rw [List.filter_eq_nil_iff]
    intro a ha
    simp [key a ha]
  refine ⟨?_, hempty, ?_⟩
  · unfold skipped_addons
    rw [List.filter_eq_self.mpr (fun a ha => by simp [key a ha])]
  · unfold process_addons_trace
    rw [hempty]
    simp only [List.isEmpty_nil, if_true]
    exact List.map_congr_left fun a ha => by rw [key a ha]

/-- C1 witness: one addon "10", empty output root before the first call, and
a post-call state whose single output entry carries the marker for "10". -/
theorem C1_second_call_skips_all_witness :
    (FS.mk [("10", true)] true
          [DirEntry.mk "The Addon" true
            (some (create_workshop_shortcut_content "10"))]).workshopChildren =
        (FS.mk [("10", true)] false []).workshopChildren ∧
      (FS.mk [("10", true)] true
          [DirEntry.mk "The Addon" true
            (some (create_workshop_shortcut_content "10"))]).translatedExists = true ∧
      (skipped_addons
          (FS.mk [("10", true)] true
            [DirEntry.mk "The Addon" true
              (some (create_workshop_shortcut_content "10"))])).length =
        (addon_folders
          (FS.mk [("10", true)] true
            [DirEntry.mk "The Addon" true
              (some (create_workshop_shortcut_content "10"))])).length ∧
      addons_to_process
          (FS.mk [("10", true)] true
            [DirEntry.mk "The Addon" true
              (some (create_workshop_shortcut_content "10"))]) = [] ∧
      process_addons_trace
          (FS.mk [("10", true)] true
            [DirEntry.mk "The Addon" true
              (some (create_workshop_shortcut_content "10"))]) 6 =
        (addon_folders
          (FS.mk [("10", true)] true
            [DirEntry.mk "The Addon" true
              (some (create_workshop_shortcut_content "10"))])).map
          fun id => Ev.scan id true := by
  refine ⟨rfl, rfl, ?_⟩
  have h := C1_second_call_skips_all (FS.mk [("10", true)] false [])
    (FS.mk [("10", true)] true
      [DirEntry.mk "The Addon" true
        (some (create_workshop_shortcut_content "10"))]) 6
    rfl rfl (by simp)
    (by
      set_option maxRecDepth 4000 in decide)
  exact ⟨h.1, h.2.1, h.2.2⟩

/-- In a list split as `pre ++ post` where `pre` holds only scan events and
`post` holds none, any scan index is below any dispatch index. -/
theorem scan_lt_dispatch_of_split {pre post : List Ev} {i j : Nat}
    {id idd : String} {b : Bool}
    (hpre : ∀ ev ∈ pre, ∃ a bb, ev = Ev.scan a bb)
    (hpost : ∀ ev ∈ post, ∀ a bb, ev ≠ Ev.scan a bb)
    (hi : (pre ++ post)[i]? = some (Ev.scan id b))
    (hj : (pre ++ post)[j]? = some (Ev.dispatch idd)) :
    i < j := by
  have hilt : i < pre.length := by
    by_contra hh
    push_neg at hh
    rw [List.getElem?_append_right hh] at hi
    exact (hpost _ (List.getElem?_mem hi) id b) rfl
  have hjge : pre.length ≤ j := by
    by_contra hh
    push_neg at hh
    rw [List.getElem?_append_left hh] at hj
    obtain ⟨a, bb, heq⟩ := hpre _ (List.getElem?_mem hj)
    exact absurd heq (by simp)
  omega

/-- C7. Scan-before-dispatch ordering: in the trace of any `process_addons`
call, every idempotency-check event precedes every dispatch event — the
skip-scan is fully computed before the first item reaches the worker
pool. -/
theorem C7_scan_before_dispatch (fs : FS) (w : Int) (i j : Nat)
    (id : String) (b : Bool) (idd : String)
    (hi : (process_addons_trace fs w)[i]? = some (Ev.scan id b))
    (hj : (process_addons_trace fs w)[j]? = some (Ev.dispatch idd)) :
    i < j := by
  simp only [process_addons_trace] at hi hj
  have hpre : ∀ ev ∈ (addon_folders fs).map
      (fun a => Ev.scan a (is_addon_already_processed fs a)),
      ∃ a bb, ev = Ev.scan a bb := by
    intro ev hev
    obtain ⟨a, _, rfl⟩ := List.mem_map.mp hev
    exact ⟨a, _, rfl⟩
  by_cases hempty : (addons_to_process fs).isEmpty = true
  · rw [if_pos hempty] at hi hj
    obtain ⟨a, bb, heq⟩ := hpre _ (List.getElem?_mem hj)
    exact absurd heq (by simp)
  · rw [if_neg hempty] at hi hj
    by_cases hw : w ≤ 0
    · rw [if_pos hw] at hi hj
      refine scan_lt_dispatch_of_split hpre ?_ hi hj
      intro ev hev a bb
      obtain rfl : ev = Ev.poolError := by simpa using hev
      simp
    · rw [if_neg hw] at hi hj
      refine scan_lt_dispatch_of_split hpre ?_ hi hj
      intro ev hev a bb
      obtain ⟨x, _, rfl⟩ := List.mem_map.mp hev
      simp

/-- C7 witness: a one-item trace with its scan at index 0 and its dispatch
at index 1. -/
theorem C7_scan_before_dispatch_witness :
    (process_addons_trace (FS.mk [("55", true)] false []) 5)[0]? =
        some (Ev.scan "55" false) ∧
      (process_addons_trace (FS.mk [("55", true)] false []) 5)[1]? =
        some (Ev.dispatch "55") ∧
      (0 : Nat) < 1 := by
  refine ⟨?_, ?_, ?_⟩
  · set_option maxRecDepth 4000 in decide
  · set_option maxRecDepth 4000 in decide
  · exact C7_scan_before_dispatch (FS.mk [("55", true)] false []) 5 0 1
      "55" false "55"
      (by set_option maxRecDepth 4000 in decide)
      (by set_option maxRecDepth 4000 in decide)

end GmodAddonTranslator
